import Mathlib

/-!
Verification of the ndvi-visor core (src/js/ndvi.js, src/js/stac.js).

Numeric model: JavaScript numbers are modelled by `ℚ` (exact rationals);
pixel indices by `ℤ`/`ℕ`.  `Math.floor`/`Math.ceil` become `Int.floor`/
`Int.ceil`, and `Math.round x` (which in JavaScript is `⌊x + 1/2⌋`, ties
towards +∞) becomes `jsRound`.  The `NaN` sentinel used by the code for
no-data samples is modelled by `Option` (`none` = `NaN`), and the
`Infinity` / `-Infinity` initial accumulators of the statistics fold are
modelled by `Option ℚ` (`none` = the untouched infinite sentinel).
-/

namespace NdviVisor

/-- JavaScript `Math.round`: round half towards positive infinity. -/
def jsRound (q : ℚ) : ℤ := ⌊q + 1/2⌋

/-- Affine geotransform of the raster: `X = originX + col * xRes`,
`Y = originY + row * yRes` (`yRes < 0`, north-up). -/
structure GeoTransform where
  originX : ℚ
  originY : ℚ
  xRes : ℚ
  yRes : ℚ

/-- Half-open integer pixel window `[col0, col1) × [row0, row1)`. -/
structure PixelWindow where
  col0 : ℤ
  row0 : ℤ
  col1 : ℤ
  row1 : ℤ
deriving DecidableEq, Repr

/-- An axis-aligned box in the raster's native CRS
(the `utmCoords` object of `readCOGWindow`). -/
structure NativeBBox where
  xmin : ℚ
  ymin : ℚ
  xmax : ℚ
  ymax : ℚ
deriving DecidableEq, Repr

/-- AOI reprojection step of `readCOGWindow` (ndvi.js lines 32–54).
`proj` models the external `proj4` forward transform from EPSG:4326 to the
image CRS; it is a parameter because proj4 is an external library.
If the image is already geographic (`epsg = 4326`) the box passes through
unchanged; otherwise all four corners are projected and the axis-aligned
bounding box of the four projected points is returned
(`Math.min(...)` / `Math.max(...)` over the four coordinates). -/
def reprojectAOI (proj : ℚ × ℚ → ℚ × ℚ) (epsg : ℕ)
    (west south east north : ℚ) : NativeBBox :=
  if epsg = 4326 then
    { xmin := west, ymin := south, xmax := east, ymax := north }
  else
    let p1 := proj (west, south)
    let p2 := proj (east, south)
    let p3 := proj (east, north)
    let p4 := proj (west, north)
    { xmin := min (min (min p1.1 p2.1) p3.1) p4.1
      ymin := min (min (min p1.2 p2.2) p3.2) p4.2
      xmax := max (max (max p1.1 p2.1) p3.1) p4.1
      ymax := max (max (max p1.2 p2.2) p3.2) p4.2 }

/-- Pixel-window mapping step of `readCOGWindow` (ndvi.js lines 61–77):
floor/ceil conversion of the native-CRS box into pixel coordinates,
clamping (`col0,row0` from below by 0, `col1,row1` from above by the full
dimensions), and the explicit `null` no-intersection sentinel when the
clamped window is empty. -/
def mapPixelWindow (gt : GeoTransform) (box : NativeBBox)
    (fullW fullH : ℕ) : Option PixelWindow :=
  let col0 : ℤ := ⌊(box.xmin - gt.originX) / gt.xRes⌋
  let row0 : ℤ := ⌊(box.ymax - gt.originY) / gt.yRes⌋
  let col1 : ℤ := ⌈(box.xmax - gt.originX) / gt.xRes⌉
  let row1 : ℤ := ⌈(box.ymin - gt.originY) / gt.yRes⌉
  let col0 := max 0 col0
  let row0 := max 0 row0
  let col1 := min (fullW : ℤ) col1
  let row1 := min (fullH : ℤ) row1
  if col1 ≤ col0 ∨ row1 ≤ row0 then none
  else some { col0 := col0, row0 := row0, col1 := col1, row1 := row1 }

/-- Output-size computation of `readCOGWindow` (ndvi.js lines 81–88):
`scale = min(1, 1024 / max(winW, winH))`, each output dimension is
`max(1, round(win * scale))`.  In the source this point is only reached
with `winW ≥ 1` and `winH ≥ 1` (the empty-window sentinel was returned
before), so `max winW winH ≠ 0`. -/
def computeOutputSize (winW winH : ℕ) : ℤ × ℤ :=
  let scale : ℚ := min 1 (1024 / ((max winW winH : ℕ) : ℚ))
  let outW : ℤ := max 1 (jsRound (winW * scale))
  let outH : ℤ := max 1 (jsRound (winH * scale))
  (outW, outH)

/-! ## NDVI computation (`computeNDVIArray`, ndvi.js lines 119–156) -/

/-- Landsat Collection 2 Level-2 reflectance scale (`SCALE = 0.0000275`). -/
def SCALE : ℚ := 275 / 10000000

/-- Landsat Collection 2 Level-2 reflectance offset (`OFFSET = -0.2`). -/
def OFFSET : ℚ := -(2 / 10)

/-- Per-band calibration: `Math.max(0, Math.min(1, raw * SCALE + OFFSET))`. -/
def calib (raw : ℚ) : ℚ := max 0 (min 1 (raw * SCALE + OFFSET))

/-- One sample of the NDVI loop body (ndvi.js lines 135–138).  A missing
raw sample (out-of-bounds typed-array read, `undefined` in JavaScript)
propagates as `NaN` through the arithmetic and the `denom > 0` test is
then false, so it yields the no-data sentinel. -/
def ndviSample (rawRed rawNir : Option ℚ) : Option ℚ :=
  match rawRed, rawNir with
  | some rawR, some rawN =>
    let r := calib rawR
    let n := calib rawN
    let denom := n + r
    if 0 < denom then some ((n - r) / denom) else none
  | _, _ => none

/-- One band's sampled window: `{ data, width, height }` as returned by
`readCOGWindow`. -/
structure BandWindow where
  data : List ℚ
  width : ℕ
  height : ℕ

/-- The statistics object of `computeNDVIArray`.  `min`/`max` are `none`
when they still hold their initial `Infinity` / `-Infinity` sentinels
(no valid sample was folded in). -/
structure NDVIStats where
  min : Option ℚ
  mean : ℚ
  max : Option ℚ
  vegPct : ℚ
deriving DecidableEq, Repr

/-- Result of `computeNDVIArray`: the NDVI values (row-major, `none` =
`NaN`), the trimmed dimensions and the statistics. -/
structure NDVIResult where
  ndvi : List (Option ℚ)
  width : ℕ
  height : ℕ
  stats : NDVIStats

/-- Accumulator of the statistics loop: `sum`, `cnt`, `veg`, `minV`,
`maxV` (the latter two `none` while still at `Infinity`/`-Infinity`). -/
structure StatsAcc where
  sum : ℚ
  cnt : ℕ
  veg : ℕ
  minV : Option ℚ
  maxV : Option ℚ

/-- One iteration of the statistics accumulation (ndvi.js lines 141–146):
a `NaN` value is skipped, a valid value updates `sum`, `cnt`, the running
minimum and maximum (`v < minV` is always true against `Infinity`,
`v > maxV` always true against `-Infinity`) and the vegetation counter
(`v > 0.3`). -/
def statsStep (acc : StatsAcc) (v : Option ℚ) : StatsAcc :=
  match v with
  | none => acc
  | some v =>
    { sum := acc.sum + v
      cnt := acc.cnt + 1
      veg := if 3/10 < v then acc.veg + 1 else acc.veg
      minV := match acc.minV with
              | none => some v
              | some m => if v < m then some v else some m
      maxV := match acc.maxV with
              | none => some v
              | some m => if m < v then some v else some m }

/-- Fold of `statsStep` over the NDVI values, starting from
`sum = 0, cnt = 0, veg = 0, minV = Infinity, maxV = -Infinity`. -/
def statsFold (vs : List (Option ℚ)) : StatsAcc :=
  vs.foldl statsStep { sum := 0, cnt := 0, veg := 0, minV := none, maxV := none }

/-- `computeNDVIArray` (ndvi.js lines 119–156): trims both bands to
`min(width) × min(height)`, computes the NDVI value for each flat index
`i < width * height` from `red.data[i]` and `nir.data[i]` (note: flat
indices into the untrimmed row-major arrays), accumulates the statistics
and finishes with `mean = cnt > 0 ? sum/cnt : 0` and
`vegPct = cnt > 0 ? veg/cnt*100 : 0`. -/
def computeNDVIArray (redData nirData : BandWindow) : NDVIResult :=
  let width := min redData.width nirData.width
  let height := min redData.height nirData.height
  let ndvi := (List.range (width * height)).map
    (fun i => ndviSample (redData.data.get? i) (nirData.data.get? i))
  let acc := statsFold ndvi
  let mean := if 0 < acc.cnt then acc.sum / acc.cnt else 0
  let vegPct := if 0 < acc.cnt then (acc.veg : ℚ) / acc.cnt * 100 else 0
  { ndvi := ndvi, width := width, height := height
    stats := { min := acc.minV, mean := mean, max := acc.maxV, vegPct := vegPct } }

/-! ## Colormaps (`applyColormap` / `interp`, ndvi.js lines 186–214) -/

/-- An RGB triple. -/
abbrev RGB := ℤ × ℤ × ℤ

/-- Piecewise-linear palette interpolation `interp(t, stops)`
(ndvi.js lines 202–214).  `i = min(floor(t*n), n-1)`; a negative `i`
makes `stops[i]` undefined in JavaScript and the subsequent `a[0]`
access throws — modelled by `none`.  `b = stops[i+1] || stops[n]`
falls back to the last stop when `stops[i+1]` is undefined. -/
def interp (t : ℚ) (stops : List RGB) : Option RGB :=
  let n : ℤ := (stops.length : ℤ) - 1
  let pos : ℚ := t * (n : ℚ)
  let i : ℤ := min ⌊pos⌋ (n - 1)
  if i < 0 then none
  else
    let f : ℚ := pos - (i : ℚ)
    match stops.get? i.toNat,
          (stops.get? (i.toNat + 1)).orElse (fun _ => stops.get? (stops.length - 1)) with
    | some a, some b =>
      some (jsRound (a.1 + (b.1 - a.1) * f),
            jsRound (a.2.1 + (b.2.1 - a.2.1) * f),
            jsRound (a.2.2 + (b.2.2 - a.2.2) * f))
    | _, _ => none

/-- The color-stop list of each palette in `applyColormap`; an unknown
name falls through to the `rdylgn` default branch. -/
def paletteStops (name : String) : List RGB :=
  match name with
  | "greens" => [(247,252,245),(0,109,44)]
  | "viridis" => [(68,1,84),(59,82,139),(33,145,140),(94,201,98),(253,231,37)]
  | "spectral" =>
    [(158,1,66),(213,62,79),(253,174,97),(255,255,191),(171,221,164),(43,131,186),(94,79,162)]
  | "ylgn" => [(255,255,229),(120,198,121),(0,104,55)]
  | _ =>
    [(165,0,38),(215,48,39),(244,109,67),(253,174,97),(254,224,139),(255,255,191),
     (217,239,139),(166,217,106),(102,189,99),(26,152,80),(0,104,55)]

/-- `applyColormap(t, name)` (ndvi.js lines 186–200): dispatch on the
palette name, then interpolate. -/
def applyColormap (t : ℚ) (name : String) : Option RGB :=
  interp t (paletteStops name)

/-! ## URL signing retry loop (`signUrl`, stac.js lines 249–284) -/

/-- One response of the signing endpoint, as observed by an attempt:
a successful response carrying the signed href, a non-ok HTTP status,
or a rejected fetch (network error, thrown before a status exists). -/
inductive SignResponse where
  | ok (href : String)
  | http (status : ℕ)
  | netErr
deriving DecidableEq, Repr

/-- Terminal outcome of `signUrl`: the signed href, the rethrown
`URL signing failed: HTTP <s>` error, the rethrown network error, or the
final `failed after 4 attempts (rate limited)` error after the loop is
exhausted. -/
inductive SignResult where
  | success (href : String)
  | httpError (status : ℕ)
  | networkError
  | exhausted
deriving DecidableEq, Repr

/-- The attempt loop of `signUrl`, with `remaining` attempts left and the
current backoff `delay`; `responses attempt` is the response observed by
the fetch of that attempt (1-based).  Returns the outcome and the list of
backoff delays actually slept, in order.  `remaining = 0` inside an
attempt means `attempt === MAX_RETRIES`: a thrown error is rethrown
instead of retried.  A 429 always sleeps and continues — even on the
last attempt, after which the loop exits and the final error is thrown. -/
def signUrlGo (responses : ℕ → SignResponse) :
    ℕ → ℕ → ℕ → SignResult × List ℕ
  | 0, _, _ => (.exhausted, [])
  | remaining + 1, attempt, delay =>
    match responses attempt with
    | .ok h => (.success h, [])
    | .http s =>
      if s = 429 then
        let rest := signUrlGo responses remaining (attempt + 1) (delay * 2)
        (rest.1, delay :: rest.2)
      else
        -- `throw` inside the `try`: caught by the `catch` block,
        -- which retries unless this was the last attempt.
        if remaining = 0 then (.httpError s, [])
        else
          let rest := signUrlGo responses remaining (attempt + 1) (delay * 2)
          (rest.1, delay :: rest.2)
    | .netErr =>
      if remaining = 0 then (.networkError, [])
      else
        let rest := signUrlGo responses remaining (attempt + 1) (delay * 2)
        (rest.1, delay :: rest.2)

/-- `signUrl`: `MAX_RETRIES = 4` attempts, initial delay 800 ms. -/
def signUrl (responses : ℕ → SignResponse) : SignResult × List ℕ :=
  signUrlGo responses 4 1 800

/-- The five palette names accepted by `applyColormap`. -/
def greensName : String := "greens"

/-- Palette name for the viridis branch. -/
def viridisName : String := "viridis"

/-- Palette name for the spectral branch. -/
def spectralName : String := "spectral"

/-- Palette name for the ylgn branch. -/
def ylgnName : String := "ylgn"

/-- Palette name for the rdylgn (default) branch. -/
def rdylgnName : String := "rdylgn"

/-! ## Helper lemmas -/

lemma calib_eval_20000 : calib 20000 = 7/20 := by
  norm_num [calib, SCALE, OFFSET, min_def, max_def]

lemma calib_eval_30000 : calib 30000 = 5/8 := by
  norm_num [calib, SCALE, OFFSET, min_def, max_def]

lemma calib_eval_0 : calib 0 = 0 := by
  norm_num [calib, SCALE, OFFSET, min_def, max_def]

lemma ndviSample_eval_eq : ndviSample (some 20000) (some 20000) = some 0 := by
  simp only [ndviSample]
  rw [if_pos (by rw [calib_eval_20000]; norm_num), sub_self, zero_div]

lemma ndviSample_eval_zero : ndviSample (some 0) (some 0) = none := by
  simp only [ndviSample]
  rw [if_neg (by rw [calib_eval_0]; norm_num)]

lemma ndviSample_eval_mix : ndviSample (some 30000) (some 20000) = some (-(11/39)) := by
  simp only [ndviSample, calib_eval_20000, calib_eval_30000]
  norm_num

lemma calib_nonneg (raw : ℚ) : 0 ≤ calib raw := le_max_left 0 _

lemma calib_le_one (raw : ℚ) : calib raw ≤ 1 :=
  max_le (by norm_num) (min_le_left 1 _)

/-- Any value that `ndviSample` produces lies in `[-1, 1]`. -/
lemma ndviSample_range (rawRed rawNir : Option ℚ) (v : ℚ)
    (h : ndviSample rawRed rawNir = some v) : -1 ≤ v ∧ v ≤ 1 := by
  cases rawRed with
  | none => simp [ndviSample] at h
  | some rawR =>
    cases rawNir with
    | none => simp [ndviSample] at h
    | some rawN =>
      simp only [ndviSample] at h
      by_cases hpos : 0 < calib rawN + calib rawR
      · rw [if_pos hpos] at h
        have hv : (calib rawN - calib rawR) / (calib rawN + calib rawR) = v :=
          Option.some.inj h
        have hr0 : 0 ≤ calib rawR := calib_nonneg rawR
        have hn0 : 0 ≤ calib rawN := calib_nonneg rawN
        subst hv
        constructor
        · rw [le_div_iff₀ hpos]; linarith
        · rw [div_le_iff₀ hpos]; linarith
      · rw [if_neg hpos] at h
        exact absurd h (by simp)

lemma jsRound_intCast (z : ℤ) : jsRound (z : ℚ) = z := by
  unfold jsRound
  rw [add_comm, Int.floor_add_int]
  norm_num

/-- The 1×1 NDVI computation at equal raw bands yields `[some 0]`. -/
lemma computeNDVI_single_ndvi :
    (computeNDVIArray ⟨[20000], 1, 1⟩ ⟨[20000], 1, 1⟩).ndvi = [some 0] := by
  simp [computeNDVIArray, List.range_succ, ndviSample_eval_eq]

/-- `interp` at `t = 1` returns the last color stop. -/
lemma interp_one (stops : List RGB) (h : 2 ≤ stops.length) :
    interp 1 stops = stops.get? (stops.length - 1) := by
  match stops, h with
  | a :: b :: rest, _ =>
    simp only [interp, one_mul, Int.floor_intCast, List.length_cons]
    have e1 : ((rest.length + 1 + 1 : ℕ) : ℤ) - 1 - 1 = (rest.length : ℤ) := by
      push_cast
      ring
    rw [min_eq_right (by omega), e1]
    rw [if_neg (by omega)]
    have e2 : ((rest.length : ℤ)).toNat = rest.length := Int.toNat_natCast rest.length
    rw [e2]
    obtain ⟨y, hy⟩ : ∃ y, (a :: b :: rest).get? (rest.length + 1) = some y := by
      rw [List.get?_eq_getElem?]
      exact ⟨_, List.getElem?_eq_getElem (by simp only [List.length_cons]; omega)⟩
    obtain ⟨x, hx⟩ : ∃ x, (a :: b :: rest).get? rest.length = some x := by
      rw [List.get?_eq_getElem?]
      exact ⟨_, List.getElem?_eq_getElem (by simp only [List.length_cons]; omega)⟩
    have e3 : rest.length + 1 + 1 - 1 = rest.length + 1 := by omega
    rw [hx, e3, hy]
    simp only [Option.orElse]
    have e5 : ∀ u v : ℤ, jsRound ((u : ℚ) + ((v : ℚ) - (u : ℚ)) *
        (((((rest.length + 1 + 1 : ℕ) : ℤ) - 1 : ℤ) : ℚ) - ((rest.length : ℤ) : ℚ))) = v := by
      intro u v
      have hval : ((u : ℚ) + ((v : ℚ) - (u : ℚ)) *
          (((((rest.length + 1 + 1 : ℕ) : ℤ) - 1 : ℤ) : ℚ) - ((rest.length : ℤ) : ℚ))) = (v : ℚ) := by
        have h1 : (((((rest.length + 1 + 1 : ℕ) : ℤ) - 1 : ℤ) : ℚ) -
            ((rest.length : ℤ) : ℚ)) = 1 := by
          push_cast
          ring
        rw [h1]
        ring
      rw [hval, jsRound_intCast]
    rw [e5, e5, e5]

/-- `interp` at `t = 0` returns the first color stop. -/
lemma interp_zero (stops : List RGB) (h : 2 ≤ stops.length) :
    interp 0 stops = stops.head? := by
  match stops, h with
  | a :: b :: rest, _ =>
    have hlen : ((a :: b :: rest).length : ℤ) - 1 - 1 = rest.length := by
      push_cast [List.length_cons]
      ring
    simp only [interp, zero_mul, Int.floor_zero]
    rw [min_eq_left (by omega)]
    rw [if_neg (by omega)]
    simp [jsRound_intCast]

end NdviVisor

namespace NdviVisor

/-! ## Claim theorems -/

/-- C2: for every pair of raw band samples, the index computer applies
`reflect = clamp(raw*scale+offset, 0, 1)` to each band, forms
`denom = nir_reflect + red_reflect`, and returns
`(nir_reflect - red_reflect)/denom` when `denom > 0` and the no-data
sentinel otherwise; when the two reflectances coincide and `denom > 0`
the result is exactly 0, and when both reflectances are 0 it is
no-data. -/
theorem ndviSample_calibration (rawR rawN : ℚ) :
    ndviSample (some rawR) (some rawN) =
      (if 0 < calib rawN + calib rawR
       then some ((calib rawN - calib rawR) / (calib rawN + calib rawR))
       else none) ∧
    (calib rawN = calib rawR → 0 < calib rawN + calib rawR →
      ndviSample (some rawR) (some rawN) = some 0) ∧
    (calib rawR = 0 → calib rawN = 0 →
      ndviSample (some rawR) (some rawN) = none) := by
  refine ⟨rfl, ?_, ?_⟩
  · intro heq hpos
    simp only [ndviSample]
    rw [if_pos hpos, heq, sub_self, zero_div]
  · intro hr hn
    simp only [ndviSample]
    rw [hr, hn]
    norm_num

/-- Witness for C2 at the concrete raw value 20000 (reflectance 0.35). -/
theorem ndviSample_calibration_witness :
    calib 20000 = calib 20000 ∧ 0 < calib 20000 + calib 20000 ∧
    ndviSample (some 20000) (some 20000) = some 0 :=
  ⟨rfl, by rw [calib_eval_20000]; norm_num,
   (ndviSample_calibration 20000 20000).2.1 rfl
     (by rw [calib_eval_20000]; norm_num)⟩

/-- C5: every non-no-data value produced by the index computer lies in
the closed interval `[-1, 1]`. -/
theorem computeNDVI_values_in_range (red nir : BandWindow) (ov : Option ℚ)
    (hmem : ov ∈ (computeNDVIArray red nir).ndvi) (v : ℚ) (hv : ov = some v) :
    -1 ≤ v ∧ v ≤ 1 := by
  subst hv
  simp only [computeNDVIArray, List.mem_map] at hmem
  obtain ⟨i, -, hi⟩ := hmem
  exact ndviSample_range _ _ v hi

/-- Witness for C5 on a concrete 1×1 computation. -/
theorem computeNDVI_values_in_range_witness :
    some 0 ∈ (computeNDVIArray ⟨[20000], 1, 1⟩ ⟨[20000], 1, 1⟩).ndvi ∧
    (-1 : ℚ) ≤ 0 ∧ (0 : ℚ) ≤ 1 :=
  ⟨by rw [computeNDVI_single_ndvi]; exact List.mem_singleton.mpr rfl,
   computeNDVI_values_in_range ⟨[20000], 1, 1⟩ ⟨[20000], 1, 1⟩ (some 0)
     (by rw [computeNDVI_single_ndvi]; exact List.mem_singleton.mpr rfl) 0 rfl⟩

/-- C6: if the image CRS is geographic (EPSG 4326) the AOI reprojector
returns the box unchanged; otherwise it projects the four corners and
returns their axis-aligned bounding box, which therefore contains every
projected corner. -/
theorem reprojectAOI_spec (proj : ℚ × ℚ → ℚ × ℚ) (epsg : ℕ)
    (west south east north : ℚ) :
    (epsg = 4326 →
      reprojectAOI proj epsg west south east north =
        { xmin := west, ymin := south, xmax := east, ymax := north }) ∧
    (epsg ≠ 4326 →
      ∀ c ∈ [(west, south), (east, south), (east, north), (west, north)],
        (reprojectAOI proj epsg west south east north).xmin ≤ (proj c).1 ∧
        (proj c).1 ≤ (reprojectAOI proj epsg west south east north).xmax ∧
        (reprojectAOI proj epsg west south east north).ymin ≤ (proj c).2 ∧
        (proj c).2 ≤ (reprojectAOI proj epsg west south east north).ymax) := by
  constructor
  · intro h
    simp [reprojectAOI, h]
  · intro h c hc
    simp only [reprojectAOI, if_neg h]
    fin_cases hc <;>
      exact ⟨by simp [min_le_iff], by simp [le_max_iff],
             by simp [min_le_iff], by simp [le_max_iff]⟩

/-- Witness for C6: identity projection on a concrete box, both in the
geographic passthrough case and at the corner `(1, 2)` in the projected
case. -/
theorem reprojectAOI_spec_witness :
    reprojectAOI (fun p => p) 4326 1 2 3 4 =
      { xmin := 1, ymin := 2, xmax := 3, ymax := 4 } ∧
    ((reprojectAOI (fun p => p) 32633 1 2 3 4).xmin ≤ 1 ∧
     (1 : ℚ) ≤ (reprojectAOI (fun p => p) 32633 1 2 3 4).xmax ∧
     (reprojectAOI (fun p => p) 32633 1 2 3 4).ymin ≤ 2 ∧
     (2 : ℚ) ≤ (reprojectAOI (fun p => p) 32633 1 2 3 4).ymax) :=
  ⟨(reprojectAOI_spec (fun p => p) 4326 1 2 3 4).1 rfl,
   (reprojectAOI_spec (fun p => p) 32633 1 2 3 4).2 (by decide) (1, 2)
     (by simp)⟩

/-- C7 (code bug): when every attempt of the signing request answers
HTTP 500 — a non-rate-limit error — the loop nevertheless retries three
times with backoff delays 800, 1600 and 3200 ms before surfacing the
HTTP error from the fourth attempt (the thrown error is caught by the
surrounding `catch`, defeating the code's own
"Any other HTTP error — not worth retrying" comment).  A steady 429, by
contrast, is retried with delays 800, 1600, 3200 and 6400 ms (four
attempts) before the final rate-limited error, as the claim states. -/
theorem signUrl_retry_behavior :
    signUrl (fun _ => .http 500) = (.httpError 500, [800, 1600, 3200]) ∧
    signUrl (fun _ => .http 429) = (.exhausted, [800, 1600, 3200, 6400]) :=
  ⟨rfl, rfl⟩

/-- C10: evaluating the colormap at `t = 0` returns exactly the palette's
first color stop and at `t = 1` exactly its last stop, for each of the
five supported palette names and for an unknown name (which falls back to
the default rdylgn palette); the colormap is a pure function of
`(t, name)`. -/
theorem applyColormap_endpoints :
    (applyColormap 0 greensName = (paletteStops greensName).head? ∧
     applyColormap 1 greensName = (paletteStops greensName).getLast?) ∧
    (applyColormap 0 viridisName = (paletteStops viridisName).head? ∧
     applyColormap 1 viridisName = (paletteStops viridisName).getLast?) ∧
    (applyColormap 0 spectralName = (paletteStops spectralName).head? ∧
     applyColormap 1 spectralName = (paletteStops spectralName).getLast?) ∧
    (applyColormap 0 ylgnName = (paletteStops ylgnName).head? ∧
     applyColormap 1 ylgnName = (paletteStops ylgnName).getLast?) ∧
    (applyColormap 0 rdylgnName = (paletteStops rdylgnName).head? ∧
     applyColormap 1 rdylgnName = (paletteStops rdylgnName).getLast?) := by
  refine ⟨⟨?_, ?_⟩, ⟨?_, ?_⟩, ⟨?_, ?_⟩, ⟨?_, ?_⟩, ⟨?_, ?_⟩⟩
  · exact interp_zero _ (by decide)
  · exact (interp_one _ (by decide)).trans rfl
  · exact interp_zero _ (by decide)
  · exact (interp_one _ (by decide)).trans rfl
  · exact interp_zero _ (by decide)
  · exact (interp_one _ (by decide)).trans rfl
  · exact interp_zero _ (by decide)
  · exact (interp_one _ (by decide)).trans rfl
  · exact interp_zero _ (by decide)
  · exact (interp_one _ (by decide)).trans rfl

lemma paletteStops_two_le (name : String) : 2 ≤ (paletteStops name).length := by
  unfold paletteStops
  split <;> decide

lemma interp_neg (stops : List RGB) (h : 2 ≤ stops.length)
    (t : ℚ) (ht : t < 0) : interp t stops = none := by
  have hn : (1 : ℤ) ≤ (stops.length : ℤ) - 1 := by omega
  have hnq : (0 : ℚ) < (((stops.length : ℤ) - 1 : ℤ) : ℚ) := by exact_mod_cast hn
  have hpos : t * (((stops.length : ℤ) - 1 : ℤ) : ℚ) < 0 := mul_neg_of_neg_of_pos ht hnq
  have hfl : ⌊t * (((stops.length : ℤ) - 1 : ℤ) : ℚ)⌋ < 0 := by
    rw [Int.floor_lt]
    exact_mod_cast hpos
  simp only [interp]
  rw [if_pos (lt_of_le_of_lt (min_le_left _ _) hfl)]

lemma interp_isSome (stops : List RGB) (h : 2 ≤ stops.length)
    (t : ℚ) (ht : 0 ≤ t) : ∃ c, interp t stops = some c := by
  have hn : (1 : ℤ) ≤ (stops.length : ℤ) - 1 := by omega
  have hnq : (0 : ℚ) ≤ (((stops.length : ℤ) - 1 : ℤ) : ℚ) := by exact_mod_cast (by omega : (0:ℤ) ≤ (stops.length : ℤ) - 1)
  have hfl : 0 ≤ ⌊t * (((stops.length : ℤ) - 1 : ℤ) : ℚ)⌋ :=
    Int.floor_nonneg.mpr (mul_nonneg ht hnq)
  have hi0 : 0 ≤ min ⌊t * (((stops.length : ℤ) - 1 : ℤ) : ℚ)⌋ ((stops.length : ℤ) - 1 - 1) :=
    le_min hfl (by omega)
  have hile : min ⌊t * (((stops.length : ℤ) - 1 : ℤ) : ℚ)⌋ ((stops.length : ℤ) - 1 - 1) ≤ (stops.length : ℤ) - 1 - 1 :=
    min_le_right _ _
  simp only [interp]
  rw [if_neg (not_lt.mpr hi0)]
  obtain ⟨x, hx⟩ : ∃ x, stops.get? (min ⌊t * (((stops.length : ℤ) - 1 : ℤ) : ℚ)⌋ ((stops.length : ℤ) - 1 - 1)).toNat = some x := by
    rw [List.get?_eq_getElem?]
    exact ⟨_, List.getElem?_eq_getElem (by omega)⟩
  obtain ⟨y, hy⟩ : ∃ y, stops.get? ((min ⌊t * (((stops.length : ℤ) - 1 : ℤ) : ℚ)⌋ ((stops.length : ℤ) - 1 - 1)).toNat + 1) = some y := by
    rw [List.get?_eq_getElem?]
    exact ⟨_, List.getElem?_eq_getElem (by omega)⟩
  rw [hx, hy]
  simp only [Option.orElse]
  exact ⟨_, rfl⟩

theorem applyColormap_clamp_counterexample :
    applyColormap (-(1/2)) greensName = none ∧
    applyColormap 2 greensName = some (-247, -34, -157) ∧
    (paletteStops greensName).head? = some (247, 252, 245) ∧
    (paletteStops greensName).getLast? = some (0, 109, 44) := by
  refine ⟨interp_neg _ (by decide) _ (by norm_num), ?_, rfl, rfl⟩
  show interp 2 [(247,252,245),(0,109,44)] = _
  norm_num [interp, jsRound, min_def, List.get?]


theorem applyColormap_domain (name : String) (t : ℚ) :
    (0 ≤ t → ∃ c, applyColormap t name = some c) ∧
    (t < 0 → applyColormap t name = none) :=
  ⟨fun ht => interp_isSome _ (paletteStops_two_le name) t ht,
   fun ht => interp_neg _ (paletteStops_two_le name) t ht⟩

theorem applyColormap_domain_witness :
    ((0 : ℚ) ≤ 1/2 ∧ ∃ c, applyColormap (1/2) viridisName = some c) ∧
    ((-(1 : ℚ)) < 0 ∧ applyColormap (-(1 : ℚ)) viridisName = none) :=
  ⟨⟨by norm_num, (applyColormap_domain viridisName (1/2)).1 (by norm_num)⟩,
   ⟨by norm_num, (applyColormap_domain viridisName (-(1 : ℚ))).2 (by norm_num)⟩⟩


lemma outDim_spec (w m : ℕ) (hw : 0 < w) (hwm : w ≤ m) :
    1 ≤ max 1 (jsRound (w * min 1 (1024 / (m : ℚ)))) ∧
    max 1 (jsRound (w * min 1 (1024 / (m : ℚ)))) ≤ 1024 ∧
    max 1 (jsRound (w * min 1 (1024 / (m : ℚ)))) ≤ (w : ℤ) ∧
    |((max 1 (jsRound (w * min 1 (1024 / (m : ℚ)))) : ℤ) : ℚ) -
      w * min 1 (1024 / (m : ℚ))| ≤ 1 := by
  have hm : 0 < m := lt_of_lt_of_le hw hwm
  have hmq : (0 : ℚ) < (m : ℚ) := by exact_mod_cast hm
  have hwq : (0 : ℚ) < (w : ℚ) := by exact_mod_cast hw
  set s : ℚ := min 1 (1024 / (m : ℚ)) with hs
  have hs1 : s ≤ 1 := min_le_left _ _
  have hs0 : 0 < s := lt_min one_pos (div_pos (by norm_num) hmq)
  set q : ℚ := (w : ℚ) * s with hq
  have hq0 : 0 < q := mul_pos hwq hs0
  have hqw : q ≤ (w : ℚ) := by
    calc (w : ℚ) * s ≤ (w : ℚ) * 1 := mul_le_mul_of_nonneg_left hs1 (le_of_lt hwq)
    _ = (w : ℚ) := mul_one _
  have hmcancel : (m : ℚ) * (1024 / (m : ℚ)) = 1024 := by field_simp
  have hq1024 : q ≤ 1024 := by
    calc (w : ℚ) * s ≤ (w : ℚ) * (1024 / (m : ℚ)) :=
          mul_le_mul_of_nonneg_left (min_le_right _ _) (le_of_lt hwq)
    _ ≤ (m : ℚ) * (1024 / (m : ℚ)) :=
          mul_le_mul_of_nonneg_right (by exact_mod_cast hwm)
            (le_of_lt (div_pos (by norm_num) hmq))
    _ = 1024 := hmcancel
  set r : ℤ := jsRound q with hr
  have hr_le : (r : ℚ) ≤ q + 1/2 := Int.floor_le _
  have hr_gt : q + 1/2 < (r : ℚ) + 1 := Int.lt_floor_add_one _
  have hrw : r ≤ (w : ℤ) := by
    have h1 : (r : ℚ) < (w : ℚ) + 1 := by linarith
    have h2 : r < (w : ℤ) + 1 := by exact_mod_cast h1
    omega
  have hr1024 : r ≤ 1024 := by
    have h1 : (r : ℚ) < 1025 := by linarith
    have h2 : r < 1025 := by exact_mod_cast h1
    omega
  refine ⟨le_max_left _ _, max_le (by norm_num) hr1024,
          max_le (by exact_mod_cast hw) hrw, ?_⟩
  rcases le_or_lt 1 r with h1r | h1r
  · rw [max_eq_right h1r]
    rw [abs_le]
    constructor
    · linarith
    · linarith
  · have hr0 : r ≤ 0 := by omega
    have hr0q : (r : ℚ) ≤ 0 := by exact_mod_cast hr0
    rw [max_eq_left (by omega : r ≤ 1)]
    rw [abs_le]
    constructor
    · push_cast
      linarith
    · push_cast
      linarith

theorem computeOutputSize_spec (winW winH : ℕ) (hW : 0 < winW) (hH : 0 < winH) :
    1 ≤ (computeOutputSize winW winH).1 ∧ 1 ≤ (computeOutputSize winW winH).2 ∧
    (computeOutputSize winW winH).1 ≤ 1024 ∧ (computeOutputSize winW winH).2 ≤ 1024 ∧
    (computeOutputSize winW winH).1 ≤ (winW : ℤ) ∧
    (computeOutputSize winW winH).2 ≤ (winH : ℤ) ∧
    |(((computeOutputSize winW winH).1 : ℤ) : ℚ) -
      winW * min 1 (1024 / ((max winW winH : ℕ) : ℚ))| ≤ 1 ∧
    |(((computeOutputSize winW winH).2 : ℤ) : ℚ) -
      winH * min 1 (1024 / ((max winW winH : ℕ) : ℚ))| ≤ 1 := by
  have h1 := outDim_spec winW (max winW winH) hW (le_max_left _ _)
  have h2 := outDim_spec winH (max winW winH) hH (le_max_right _ _)
  simp only [computeOutputSize]
  exact ⟨h1.1, h2.1, h1.2.1, h2.2.1, h1.2.2.1, h2.2.2.1, h1.2.2.2, h2.2.2.2⟩

theorem computeOutputSize_spec_witness :
    0 < 3000 ∧ 0 < 1 ∧
    (1 ≤ (computeOutputSize 3000 1).1 ∧ 1 ≤ (computeOutputSize 3000 1).2 ∧
     (computeOutputSize 3000 1).1 ≤ 1024 ∧ (computeOutputSize 3000 1).2 ≤ 1024 ∧
     (computeOutputSize 3000 1).1 ≤ (3000 : ℤ) ∧
     (computeOutputSize 3000 1).2 ≤ (1 : ℤ) ∧
     |(((computeOutputSize 3000 1).1 : ℤ) : ℚ) -
       3000 * min 1 (1024 / ((max 3000 1 : ℕ) : ℚ))| ≤ 1 ∧
     |(((computeOutputSize 3000 1).2 : ℤ) : ℚ) -
       1 * min 1 (1024 / ((max 3000 1 : ℕ) : ℚ))| ≤ 1) :=
  ⟨by norm_num, by norm_num, computeOutputSize_spec 3000 1 (by norm_num) (by norm_num)⟩

theorem computeOutputSize_quotient_counterexample :
    computeOutputSize 3000 1 = (1024, 1) ∧
    ¬ |((computeOutputSize 3000 1).1 : ℚ) / ((computeOutputSize 3000 1).2 : ℚ) -
        (3000 : ℚ) / (1 : ℚ)| ≤ 1 := by
  have h : computeOutputSize 3000 1 = (1024, 1) := by
    norm_num [computeOutputSize, jsRound, min_def, max_def]
  refine ⟨h, ?_⟩
  rw [h]
  norm_num


/-- C8 counterexample: red band 3×2, NIR band 2×2 (widths differ by one
column).  The trimmed output grid is 2×2; its sample at `(col,row) = (0,1)`
is flat index `2 = 1*2+0`.  The claim says it is computed from the red
input's own `(0,1)` sample, i.e. `red.data[1*3+0] = red.data[3]`; the code
instead uses `red.data[2]` — a sample from red's row 0 — so the produced
value `-(11/39)` differs from the claimed value `0`.  Also,
`computeNDVIArray` never throws: a degenerate zero-size window produces an
empty result, not an `InvalidInputError`. -/
theorem computeNDVI_alignment_counterexample :
    (computeNDVIArray ⟨[20000, 20000, 30000, 20000, 20000, 20000], 3, 2⟩
        ⟨[20000, 20000, 20000, 20000], 2, 2⟩).ndvi.get? 2 ≠
      some (ndviSample
        (([20000, 20000, 30000, 20000, 20000, 20000] : List ℚ).get? 3)
        (([20000, 20000, 20000, 20000] : List ℚ).get? 2)) ∧
    (computeNDVIArray ⟨[], 0, 0⟩ ⟨[], 0, 0⟩).ndvi = [] := by
  constructor
  · have hL : (computeNDVIArray ⟨[20000, 20000, 30000, 20000, 20000, 20000], 3, 2⟩
        ⟨[20000, 20000, 20000, 20000], 2, 2⟩).ndvi.get? 2 =
        some (ndviSample (some 30000) (some 20000)) := by
      simp only [computeNDVIArray]
      rw [List.get?_eq_getElem?, List.getElem?_map, List.getElem?_range (by decide)]
      rfl
    have hR : some (ndviSample
        (([20000, 20000, 30000, 20000, 20000, 20000] : List ℚ).get? 3)
        (([20000, 20000, 20000, 20000] : List ℚ).get? 2)) =
        some (ndviSample (some 20000) (some 20000)) := rfl
    rw [hL, hR, ndviSample_eval_mix, ndviSample_eval_eq]
    simp only [ne_eq, Option.some.injEq]
    norm_num
  · simp [computeNDVIArray]

/-- C8 (amended): the index computer trims the output grid to
`min(widthA,widthB) × min(heightA,heightB)` and computes the output sample
at flat index `i` from `red.data[i]` and `nir.data[i]` — flat linear
indices into each band's original row-major array, which coincide with the
claimed per-`(col,row)` addressing only when the band widths are equal; it
never fails, a zero-size window simply yields an empty value list. -/
theorem computeNDVIArray_trim (red nir : BandWindow) :
    (computeNDVIArray red nir).width = min red.width nir.width ∧
    (computeNDVIArray red nir).height = min red.height nir.height ∧
    (computeNDVIArray red nir).ndvi.length =
      min red.width nir.width * min red.height nir.height ∧
    ∀ i, i < min red.width nir.width * min red.height nir.height →
      (computeNDVIArray red nir).ndvi.get? i =
        some (ndviSample (red.data.get? i) (nir.data.get? i)) := by
  refine ⟨rfl, rfl, ?_, ?_⟩
  · simp [computeNDVIArray]
  · intro i hi
    simp only [computeNDVIArray]
    rw [List.get?_eq_getElem?, List.getElem?_map, List.getElem?_range hi]
    rfl

/-- Witness for C8 on a concrete 1×1 computation. -/
theorem computeNDVIArray_trim_witness :
    0 < min 1 1 * min 1 1 ∧
    (computeNDVIArray ⟨[20000], 1, 1⟩ ⟨[20000], 1, 1⟩).ndvi.get? 0 =
      some (ndviSample (([20000] : List ℚ).get? 0) (([20000] : List ℚ).get? 0)) :=
  ⟨by decide,
   (computeNDVIArray_trim ⟨[20000], 1, 1⟩ ⟨[20000], 1, 1⟩).2.2.2 0 (by decide)⟩


/-- C1: the pixel window mapper computes
`col0 = floor((xmin-originX)/xRes)`, `row0 = floor((ymax-originY)/yRes)`,
`col1 = ceil((xmax-originX)/xRes)`, `row1 = ceil((ymin-originY)/yRes)`,
clamps `col0,row0` below by 0 and `col1,row1` above by the full
dimensions, returns the explicit no-intersection sentinel exactly when
the clamped window satisfies `col1 ≤ col0` or `row1 ≤ row0` (so it never
returns a window of non-positive size), and for any AOI box strictly
inside the raster footprint it returns a window; by the first conjunct
that window is non-empty and contained in `[0,fullW) × [0,fullH)`. -/
theorem mapPixelWindow_spec (gt : GeoTransform) (box : NativeBBox)
    (fullW fullH : ℕ) (hx : 0 < gt.xRes) (hy : gt.yRes < 0) :
    (∀ w, mapPixelWindow gt box fullW fullH = some w →
      w.col0 = max 0 ⌊(box.xmin - gt.originX) / gt.xRes⌋ ∧
      w.row0 = max 0 ⌊(box.ymax - gt.originY) / gt.yRes⌋ ∧
      w.col1 = min (fullW : ℤ) ⌈(box.xmax - gt.originX) / gt.xRes⌉ ∧
      w.row1 = min (fullH : ℤ) ⌈(box.ymin - gt.originY) / gt.yRes⌉ ∧
      0 ≤ w.col0 ∧ w.col0 < w.col1 ∧ w.col1 ≤ (fullW : ℤ) ∧
      0 ≤ w.row0 ∧ w.row0 < w.row1 ∧ w.row1 ≤ (fullH : ℤ)) ∧
    (mapPixelWindow gt box fullW fullH = none ↔
      min (fullW : ℤ) ⌈(box.xmax - gt.originX) / gt.xRes⌉ ≤
        max 0 ⌊(box.xmin - gt.originX) / gt.xRes⌋ ∨
      min (fullH : ℤ) ⌈(box.ymin - gt.originY) / gt.yRes⌉ ≤
        max 0 ⌊(box.ymax - gt.originY) / gt.yRes⌋) ∧
    (gt.originX ≤ box.xmin → box.xmin < box.xmax →
     box.xmax ≤ gt.originX + (fullW : ℚ) * gt.xRes →
     gt.originY + (fullH : ℚ) * gt.yRes ≤ box.ymin → box.ymin < box.ymax →
     box.ymax ≤ gt.originY →
      ∃ w, mapPixelWindow gt box fullW fullH = some w) := by
  refine ⟨?_, ?_, ?_⟩
  · intro w hw
    simp only [mapPixelWindow] at hw
    by_cases hcond : min (fullW : ℤ) ⌈(box.xmax - gt.originX) / gt.xRes⌉ ≤
        max 0 ⌊(box.xmin - gt.originX) / gt.xRes⌋ ∨
        min (fullH : ℤ) ⌈(box.ymin - gt.originY) / gt.yRes⌉ ≤
        max 0 ⌊(box.ymax - gt.originY) / gt.yRes⌋
    · rw [if_pos hcond] at hw
      exact absurd hw (by simp)
    · rw [if_neg hcond] at hw
      push_neg at hcond
      obtain ⟨h1, h2⟩ := hcond
      obtain rfl : PixelWindow.mk
          (max 0 ⌊(box.xmin - gt.originX) / gt.xRes⌋)
          (max 0 ⌊(box.ymax - gt.originY) / gt.yRes⌋)
          (min (fullW : ℤ) ⌈(box.xmax - gt.originX) / gt.xRes⌉)
          (min (fullH : ℤ) ⌈(box.ymin - gt.originY) / gt.yRes⌉) = w :=
        Option.some.inj hw
      exact ⟨rfl, rfl, rfl, rfl, le_max_left _ _, h1, min_le_left _ _,
             le_max_left _ _, h2, min_le_left _ _⟩
  · simp only [mapPixelWindow]
    split
    next h => exact iff_of_true rfl h
    next h => exact iff_of_false (by simp) h
  · intro hxm hxx hxM hym hyy hyM
    have hA0 : 0 ≤ (box.xmin - gt.originX) / gt.xRes :=
      div_nonneg (by linarith) hx.le
    have hAB : (box.xmin - gt.originX) / gt.xRes <
        (box.xmax - gt.originX) / gt.xRes :=
      div_lt_div_of_pos_right (by linarith) hx
    have hB : (box.xmax - gt.originX) / gt.xRes ≤ (fullW : ℚ) := by
      rw [div_le_iff₀ hx]
      linarith
    have hC0 : 0 ≤ (box.ymax - gt.originY) / gt.yRes :=
      div_nonneg_of_nonpos (by linarith) hy.le
    have hCD : (box.ymax - gt.originY) / gt.yRes <
        (box.ymin - gt.originY) / gt.yRes :=
      (div_lt_div_right_of_neg hy).mpr (by linarith)
    have hD : (box.ymin - gt.originY) / gt.yRes ≤ (fullH : ℚ) := by
      rw [div_le_iff_of_neg hy]
      linarith
    have hclA : max 0 ⌊(box.xmin - gt.originX) / gt.xRes⌋ =
        ⌊(box.xmin - gt.originX) / gt.xRes⌋ :=
      max_eq_right (Int.floor_nonneg.mpr hA0)
    have hceB : ⌈(box.xmax - gt.originX) / gt.xRes⌉ ≤ (fullW : ℤ) := by
      rw [Int.ceil_le]
      push_cast
      exact hB
    have hclB : min (fullW : ℤ) ⌈(box.xmax - gt.originX) / gt.xRes⌉ =
        ⌈(box.xmax - gt.originX) / gt.xRes⌉ := min_eq_right hceB
    have hABlt : ⌊(box.xmin - gt.originX) / gt.xRes⌋ <
        ⌈(box.xmax - gt.originX) / gt.xRes⌉ := by
      rw [Int.lt_ceil]
      exact lt_of_le_of_lt (Int.floor_le _) hAB
    have hclC : max 0 ⌊(box.ymax - gt.originY) / gt.yRes⌋ =
        ⌊(box.ymax - gt.originY) / gt.yRes⌋ :=
      max_eq_right (Int.floor_nonneg.mpr hC0)
    have hceD : ⌈(box.ymin - gt.originY) / gt.yRes⌉ ≤ (fullH : ℤ) := by
      rw [Int.ceil_le]
      push_cast
      exact hD
    have hclD : min (fullH : ℤ) ⌈(box.ymin - gt.originY) / gt.yRes⌉ =
        ⌈(box.ymin - gt.originY) / gt.yRes⌉ := min_eq_right hceD
    have hCDlt : ⌊(box.ymax - gt.originY) / gt.yRes⌋ <
        ⌈(box.ymin - gt.originY) / gt.yRes⌉ := by
      rw [Int.lt_ceil]
      exact lt_of_le_of_lt (Int.floor_le _) hCD
    have hcond : ¬(min (fullW : ℤ) ⌈(box.xmax - gt.originX) / gt.xRes⌉ ≤
        max 0 ⌊(box.xmin - gt.originX) / gt.xRes⌋ ∨
        min (fullH : ℤ) ⌈(box.ymin - gt.originY) / gt.yRes⌉ ≤
        max 0 ⌊(box.ymax - gt.originY) / gt.yRes⌋) := by
      push_neg
      constructor
      · rw [hclA, hclB]
        exact hABlt
      · rw [hclC, hclD]
        exact hCDlt
    exact ⟨⟨max 0 ⌊(box.xmin - gt.originX) / gt.xRes⌋,
            max 0 ⌊(box.ymax - gt.originY) / gt.yRes⌋,
            min (fullW : ℤ) ⌈(box.xmax - gt.originX) / gt.xRes⌉,
            min (fullH : ℤ) ⌈(box.ymin - gt.originY) / gt.yRes⌉⟩,
           by simp only [mapPixelWindow]; rw [if_neg hcond]⟩

/-- Witness for C1: the spec's end-to-end scenario — origin
`(500000, 4000000)`, 30 m pixels, 1000×1000 raster, AOI
`[503000, 3994000] × [506000, 3997000]` — where the mapper returns the
window `[100,100) × [200,200)`. -/
theorem mapPixelWindow_spec_witness :
    mapPixelWindow ⟨500000, 4000000, 30, -30⟩
      ⟨503000, 3994000, 506000, 3997000⟩ 1000 1000 ≠ none := by
  obtain ⟨w, hw⟩ :=
    (mapPixelWindow_spec ⟨500000, 4000000, 30, -30⟩
      ⟨503000, 3994000, 506000, 3997000⟩ 1000 1000
      (by norm_num) (by norm_num)).2.2
      (by norm_num) (by norm_num) (by norm_num) (by norm_num) (by norm_num)
      (by norm_num)
  rw [hw]
  simp


/-- Invariant of the statistics accumulator: either no valid sample has
been folded in and everything is at its initial value, or `minV`/`maxV`
are finite and bound the running sum. -/
def statsInv (acc : StatsAcc) : Prop :=
  (acc.cnt = 0 ∧ acc.sum = 0 ∧ acc.veg = 0 ∧ acc.minV = none ∧ acc.maxV = none) ∨
  (∃ mn mx, 0 < acc.cnt ∧ acc.minV = some mn ∧ acc.maxV = some mx ∧
    (acc.cnt : ℚ) * mn ≤ acc.sum ∧ acc.sum ≤ (acc.cnt : ℚ) * mx)

lemma statsStep_inv (acc : StatsAcc) (v : Option ℚ) (h : statsInv acc) :
    statsInv (statsStep acc v) := by
  cases v with
  | none => exact h
  | some x =>
    rcases h with ⟨hc, hs, hv, hmn, hmx⟩ | ⟨mn, mx, hc, hmn, hmx, h1, h2⟩
    · right
      refine ⟨x, x, ?_, ?_, ?_, ?_, ?_⟩
      · simp [statsStep]
      · simp [statsStep, hmn]
      · simp [statsStep, hmx]
      · simp only [statsStep, hc, hs]
        push_cast
        linarith
      · simp only [statsStep, hc, hs]
        push_cast
        linarith
    · right
      simp only [statsStep, hmn, hmx]
      have hcge : (0 : ℚ) ≤ (acc.cnt : ℚ) := Nat.cast_nonneg _
      by_cases hxmn : x < mn
      · by_cases hmxx : mx < x
        · refine ⟨x, x, by omega, by simp [hxmn], by simp [hmxx], ?_, ?_⟩
          · have hcx : (acc.cnt : ℚ) * x ≤ (acc.cnt : ℚ) * mn :=
              mul_le_mul_of_nonneg_left (le_of_lt hxmn) hcge
            push_cast
            linarith
          · have hcx : (acc.cnt : ℚ) * mx ≤ (acc.cnt : ℚ) * x :=
              mul_le_mul_of_nonneg_left (le_of_lt hmxx) hcge
            push_cast
            linarith
        · refine ⟨x, mx, by omega, by simp [hxmn], by simp [hmxx], ?_, ?_⟩
          · have hcx : (acc.cnt : ℚ) * x ≤ (acc.cnt : ℚ) * mn :=
              mul_le_mul_of_nonneg_left (le_of_lt hxmn) hcge
            push_cast
            linarith
          · push_cast
            push_neg at hmxx
            linarith
      · by_cases hmxx : mx < x
        · refine ⟨mn, x, by omega, by simp [hxmn], by simp [hmxx], ?_, ?_⟩
          · push_cast
            push_neg at hxmn
            linarith
          · have hcx : (acc.cnt : ℚ) * mx ≤ (acc.cnt : ℚ) * x :=
              mul_le_mul_of_nonneg_left (le_of_lt hmxx) hcge
            push_cast
            linarith
        · refine ⟨mn, mx, by omega, by simp [hxmn], by simp [hmxx], ?_, ?_⟩
          · push_cast
            push_neg at hxmn
            linarith
          · push_cast
            push_neg at hmxx
            linarith

lemma foldl_statsInv (vs : List (Option ℚ)) (acc : StatsAcc) (h : statsInv acc) :
    statsInv (vs.foldl statsStep acc) := by
  induction vs generalizing acc with
  | nil => exact h
  | cons v vs ih => exact ih _ (statsStep_inv acc v h)

lemma statsFold_inv (vs : List (Option ℚ)) : statsInv (statsFold vs) :=
  foldl_statsInv vs _ (Or.inl ⟨rfl, rfl, rfl, rfl, rfl⟩)

lemma foldl_statsStep_cnt (vs : List (Option ℚ)) (acc : StatsAcc) :
    (vs.foldl statsStep acc).cnt = acc.cnt + vs.countP (fun v => v.isSome) := by
  induction vs generalizing acc with
  | nil => simp
  | cons v vs ih =>
    rw [List.foldl_cons, ih, List.countP_cons]
    cases v with
    | none => simp [statsStep]
    | some x =>
      simp only [statsStep, Option.isSome_some, if_true]
      omega

lemma statsFold_cnt (vs : List (Option ℚ)) :
    (statsFold vs).cnt = vs.countP (fun v => v.isSome) := by
  rw [statsFold, foldl_statsStep_cnt]
  simp

/-- C3 counterexample: on a 1×1 window whose calibrated reflectances are
both 0 (raw value 0), there are zero valid samples; the code leaves the
statistics minimum and maximum at their `Infinity`/`-Infinity` fold
sentinels (modelled `none`), so they are not zero-valued as the claim
states — only `mean` and the coverage percentage are 0. -/
theorem ndviStats_zero_count_counterexample :
    (computeNDVIArray ⟨[0], 1, 1⟩ ⟨[0], 1, 1⟩).ndvi.countP
      (fun v => v.isSome) = 0 ∧
    (computeNDVIArray ⟨[0], 1, 1⟩ ⟨[0], 1, 1⟩).stats.min ≠ some 0 ∧
    (computeNDVIArray ⟨[0], 1, 1⟩ ⟨[0], 1, 1⟩).stats.min = none ∧
    (computeNDVIArray ⟨[0], 1, 1⟩ ⟨[0], 1, 1⟩).stats.max = none ∧
    (computeNDVIArray ⟨[0], 1, 1⟩ ⟨[0], 1, 1⟩).stats.mean = 0 ∧
    (computeNDVIArray ⟨[0], 1, 1⟩ ⟨[0], 1, 1⟩).stats.vegPct = 0 := by
  refine ⟨?_, ?_, ?_, ?_, ?_, ?_⟩ <;>
    simp [computeNDVIArray, statsFold, statsStep, List.range_succ,
          ndviSample_eval_zero]

/-- C3 (amended): when the count of valid samples is zero, `mean` and the
coverage percentage are 0 but `min` and `max` keep their
`Infinity`/`-Infinity` fold sentinels (modelled `none`) rather than being
zero-valued; when the count is positive, `min ≤ mean ≤ max`. -/
theorem computeNDVI_stats_spec (red nir : BandWindow) :
    ((computeNDVIArray red nir).ndvi.countP (fun v => v.isSome) = 0 →
      (computeNDVIArray red nir).stats.mean = 0 ∧
      (computeNDVIArray red nir).stats.vegPct = 0 ∧
      (computeNDVIArray red nir).stats.min = none ∧
      (computeNDVIArray red nir).stats.max = none) ∧
    (0 < (computeNDVIArray red nir).ndvi.countP (fun v => v.isSome) →
      ∃ mn mx, (computeNDVIArray red nir).stats.min = some mn ∧
        (computeNDVIArray red nir).stats.max = some mx ∧
        mn ≤ (computeNDVIArray red nir).stats.mean ∧
        (computeNDVIArray red nir).stats.mean ≤ mx) := by
  set vs := (List.range (min red.width nir.width * min red.height nir.height)).map
    (fun i => ndviSample (red.data.get? i) (nir.data.get? i)) with hvs
  have hndvi : (computeNDVIArray red nir).ndvi = vs := rfl
  have hmin : (computeNDVIArray red nir).stats.min = (statsFold vs).minV := rfl
  have hmax : (computeNDVIArray red nir).stats.max = (statsFold vs).maxV := rfl
  have hmean : (computeNDVIArray red nir).stats.mean =
      (if 0 < (statsFold vs).cnt
       then (statsFold vs).sum / ((statsFold vs).cnt : ℚ) else 0) := rfl
  have hveg : (computeNDVIArray red nir).stats.vegPct =
      (if 0 < (statsFold vs).cnt
       then ((statsFold vs).veg : ℚ) / ((statsFold vs).cnt : ℚ) * 100 else 0) := rfl
  have hinv := statsFold_inv vs
  have hcnt := statsFold_cnt vs
  constructor
  · intro h0
    rw [hndvi] at h0
    have hc0 : (statsFold vs).cnt = 0 := by rw [hcnt, h0]
    rcases hinv with ⟨_, _, _, hmn, hmx⟩ | ⟨mn, mx, hcpos, _⟩
    · refine ⟨?_, ?_, ?_, ?_⟩
      · rw [hmean, if_neg (by omega)]
      · rw [hveg, if_neg (by omega)]
      · rw [hmin, hmn]
      · rw [hmax, hmx]
    · omega
  · intro hpos
    rw [hndvi] at hpos
    have hcpos : 0 < (statsFold vs).cnt := by rw [hcnt]; exact hpos
    have hcq : (0 : ℚ) < ((statsFold vs).cnt : ℚ) := by exact_mod_cast hcpos
    rcases hinv with ⟨hc, _⟩ | ⟨mn, mx, _, hmn, hmx, h1, h2⟩
    · omega
    · refine ⟨mn, mx, ?_, ?_, ?_, ?_⟩
      · rw [hmin, hmn]
      · rw [hmax, hmx]
      · rw [hmean, if_pos hcpos, le_div_iff₀ hcq, mul_comm]
        exact h1
      · rw [hmean, if_pos hcpos, div_le_iff₀ hcq, mul_comm]
        exact h2

/-- Witness for C3 on a concrete 1×1 computation with one valid sample. -/
theorem computeNDVI_stats_spec_witness :
    0 < (computeNDVIArray ⟨[20000], 1, 1⟩ ⟨[20000], 1, 1⟩).ndvi.countP
        (fun v => v.isSome) ∧
    ∃ mn mx,
      (computeNDVIArray ⟨[20000], 1, 1⟩ ⟨[20000], 1, 1⟩).stats.min = some mn ∧
      (computeNDVIArray ⟨[20000], 1, 1⟩ ⟨[20000], 1, 1⟩).stats.max = some mx ∧
      mn ≤ (computeNDVIArray ⟨[20000], 1, 1⟩ ⟨[20000], 1, 1⟩).stats.mean ∧
      (computeNDVIArray ⟨[20000], 1, 1⟩ ⟨[20000], 1, 1⟩).stats.mean ≤ mx :=
  have hpos : 0 < (computeNDVIArray ⟨[20000], 1, 1⟩ ⟨[20000], 1, 1⟩).ndvi.countP
      (fun v => v.isSome) := by
    rw [computeNDVI_single_ndvi]
    decide
  ⟨hpos, (computeNDVI_stats_spec ⟨[20000], 1, 1⟩ ⟨[20000], 1, 1⟩).2 hpos⟩

end NdviVisor
